import Mathlib

/-!
Verification of the `proxy-inspector` repository (an HTTP rewriting proxy in
`src/server.ts` plus an in-page highlight/inspector script in
`src/inject/inject.ts`) against its natural-language specification.

JavaScript strings are modelled as Lean `String` (sequences of `Char`); string
indices/lengths count characters.  `text.replace(new RegExp(escapeRegExp(p), "g"), "")`
is modelled as literal global removal of the substring `p`: `escapeRegExp`
escapes every regex metacharacter, so the compiled regex matches exactly the
literal pattern, and a global replace scans left to right, resuming after each
match — the semantics of `removeAllL` below.
-/

namespace ProxyInspector

/-- `leadsWith pat l` is true when `pat` is a leading segment of `l`
(the model of JavaScript `String.prototype.startsWith`). -/
def leadsWith : List Char → List Char → Bool
  | [], _ => true
  | _ :: _, [] => false
  | a :: as, b :: bs => a == b && leadsWith as bs

/-- `hasMatch pat l` is true when `pat` occurs as a contiguous segment of `l`
(the model of JavaScript `String.prototype.includes`; an empty pattern always
matches). -/
def hasMatch (pat : List Char) : List Char → Bool
  | [] => leadsWith pat []
  | c :: rest => leadsWith pat (c :: rest) || hasMatch pat rest

/-- Split `text` on the occurrences of `pat`, scanning left to right and
resuming after each match — the pieces that a global literal replace
concatenates (fuel-driven so the kernel can evaluate it; `splitOnL` supplies
`text.length` fuel, which always suffices).  An empty pattern yields the
single piece `text`. -/
def splitGo (pat : List Char) : Nat → List Char → List (List Char)
  | _, [] => [[]]
  | 0, text => [text]
  | fuel + 1, c :: rest =>
    if pat ≠ [] ∧ leadsWith pat (c :: rest) then
      [] :: splitGo pat fuel (rest.drop (pat.length - 1))
    else
      match splitGo pat fuel rest with
      | [] => [[c]]
      | p :: ps => (c :: p) :: ps

/-- Split `text` on the occurrences of `pat`. -/
def splitOnL (pat text : List Char) : List (List Char) :=
  splitGo pat text.length text

/-- Global removal of every literal occurrence of `pat` from `text`, scanning
left to right and resuming after each match (the model of
`text.replace(new RegExp(escapeRegExp(pat), "g"), "")` for nonempty `pat`;
for `pat = []` it returns `text`, but every caller guards that case).
Fuel-driven like `splitGo`; `removeAllL` supplies `text.length` fuel. -/
def removeGo (pat : List Char) : Nat → List Char → List Char
  | _, [] => []
  | 0, text => text
  | fuel + 1, c :: rest =>
    if pat ≠ [] ∧ leadsWith pat (c :: rest) then
      removeGo pat fuel (rest.drop (pat.length - 1))
    else
      c :: removeGo pat fuel rest

/-- Remove every literal occurrence of `pat` from `text`. -/
def removeAllL (pat text : List Char) : List Char :=
  removeGo pat text.length text

/-- Join pieces with a separator between consecutive pieces; `joinWith sep`
is a left inverse of splitting on `sep`. -/
def joinWith (sep : List Char) : List (List Char) → List Char
  | [] => []
  | [p] => p
  | p :: ps => p ++ sep ++ joinWith sep ps

/-! ### JavaScript string primitives on Lean `String` -/

/-- JavaScript `s.startsWith(p)`. -/
def jsStartsWith (s p : String) : Bool := leadsWith p.data s.data

/-- JavaScript `s.includes(p)`. -/
def jsIncludes (s p : String) : Bool := hasMatch p.data s.data

/-- JavaScript `s.slice(n)` (drop the first `n` characters). -/
def jsDropChars (s : String) (n : Nat) : String := String.mk (s.data.drop n)

/-- JavaScript `s.length`. -/
def jsLength (s : String) : Nat := s.data.length

/-- JavaScript truthiness of a nullable string (`null`/`undefined` and `""`
are falsy). -/
def optTruthy : Option String → Bool
  | none => false
  | some s => s ≠ ""

/-- JavaScript `x || dflt` on a nullable string. -/
def jsOr (x : Option String) (dflt : String) : String :=
  match x with
  | none => dflt
  | some s => if s = "" then dflt else s

/-- The result of deleting every occurrence of `origin` from `v`: split `v` on
`origin` and concatenate the pieces.  Used as the specification-side
description of literal origin removal. -/
def splitJoin (origin v : String) : String :=
  String.mk (splitOnL origin.data v.data).flatten

/-! ### server.ts — helpers (lines 18-44) -/

/-- `isHtml(ct)` from server.ts: `!!ct && ct.includes("text/html")`. -/
def isHtml (ct : Option String) : Bool :=
  optTruthy ct && jsIncludes (ct.getD "") "text/html"

/-- `isCss(ct)` from server.ts: `!!ct && ct.includes("text/css")`. -/
def isCss (ct : Option String) : Bool :=
  optTruthy ct && jsIncludes (ct.getD "") "text/css"

/-- `isJs(ct)` from server.ts:
`!!ct && (ct.includes("javascript") || ct.includes("ecmascript"))`. -/
def isJs (ct : Option String) : Bool :=
  optTruthy ct && (jsIncludes (ct.getD "") "javascript" || jsIncludes (ct.getD "") "ecmascript")

/-- The content-type test of the JSON branch of `processAndSend` (server.ts
line 394): `contentType && contentType.includes("application/json")`. -/
def ctJson (ct : Option String) : Bool :=
  optTruthy ct && jsIncludes (ct.getD "") "application/json"

/-- `stripOriginInText(text, origin)` from server.ts lines 37-40:
`if (!origin) return text; return text.replace(new RegExp(escapeRegExp(origin), "g"), "")`.
Because the pattern is `escapeRegExp`-escaped, the regex matches exactly the
literal `origin`, so the replace is literal global removal. -/
def stripOriginInText (text origin : String) : String :=
  if origin = "" then text
  else String.mk (removeAllL origin.data text.data)

/-- `stripOriginInCss(css, origin)` from server.ts lines 42-44. -/
def stripOriginInCss (css origin : String) : String :=
  stripOriginInText css origin

/-! ### server.ts — HTML rewriting (`rewriteHtml`, lines 78-167)

The cheerio document is modelled by the parts the rewrite passes touch:
the values of `src`/`href`/`action`/`data`/`poster` attributes, `srcset`
attribute values, inline `style` attribute values, `<style>` element bodies,
and inline scripts (each with its `data-proxy-injected` marker).  The two
scripts that `rewriteHtml` injects — the runtime patch prepended to `<head>`
and the highlight bundle appended to `<body>` — are counted by
`patchScripts` and `bundleScripts` (cheerio.load always supplies `<head>` and
`<body>`, so both injections always happen). -/

/-- An inline `<script>` element: its `data-proxy-injected` marker and its
text content. -/
structure InlineScript where
  proxyInjected : Bool
  content : String
deriving DecidableEq

/-- The parts of a cheerio-parsed HTML document that `rewriteHtml` reads and
writes. -/
structure HtmlDoc where
  urlAttrs : List String
  srcsets : List String
  styleAttrs : List String
  styleBodies : List String
  scripts : List InlineScript
  patchScripts : Nat
  bundleScripts : Nat
deriving DecidableEq

/-- The per-attribute pass of `rewriteHtml` (lines 106-114): for a
`src`/`href`/`action`/`data`/`poster` value, when the value is truthy and
starts with the origin, strip that prefix (empty result becomes `/`). -/
def stripUrlAttr (origin v : String) : String :=
  if v = "" then v
  else if jsStartsWith v origin then
    (if jsDropChars v (jsLength origin) = "" then "/" else jsDropChars v (jsLength origin))
  else v

/-- The `srcset` / inline-`style` / `<style>`-body passes of `rewriteHtml`
(lines 117-136): when the value is truthy and contains the origin, replace it
by `stripOriginInText`, otherwise leave it alone. -/
def rewriteTextIfContains (origin v : String) : String :=
  if v = "" then v
  else if jsIncludes v origin then stripOriginInText v origin
  else v

/-- The inline-script pass of `rewriteHtml` (lines 139-144): scripts marked
`data-proxy-injected` are skipped; otherwise, when the content is truthy and
contains the origin, it is replaced by `stripOriginInText`. -/
def rewriteScript (origin : String) (s : InlineScript) : InlineScript :=
  if s.proxyInjected then s
  else if s.content = "" then s
  else if jsIncludes s.content origin then { s with content := stripOriginInText s.content origin }
  else s

/-- `rewriteHtml(html, baseUrl)` from server.ts lines 78-167, applied to the
document model, parameterized by the resolved origin
(`new URL(baseUrl).origin`).  It maps the attribute/text/script passes over
the document and unconditionally injects one runtime patch script at the top
of `<head>` (lines 147-152) and one highlight bundle script at the end of
`<body>` (lines 155-164); neither injection is guarded by a prior-injection
check. -/
def rewriteHtml (origin : String) (d : HtmlDoc) : HtmlDoc :=
  { urlAttrs := d.urlAttrs.map (stripUrlAttr origin)
    srcsets := d.srcsets.map (rewriteTextIfContains origin)
    styleAttrs := d.styleAttrs.map (rewriteTextIfContains origin)
    styleBodies := d.styleBodies.map (rewriteTextIfContains origin)
    scripts := d.scripts.map (rewriteScript origin)
    patchScripts := d.patchScripts + 1
    bundleScripts := d.bundleScripts + 1 }

/-! ### URL parsing (platform `new URL`, restricted to absolute http(s) URLs)

The server and the injected scripts use the platform's `URL` class.  The model
covers absolute `http://`/`https://` URLs (the only shapes the verified claims
exercise): the origin is `scheme://host`, the pathname defaults to `/`, and
`search`/`hash` are the `?...`/`#...` tails. -/

/-- The components `new URL(u)` exposes.  `host` includes any port. -/
structure UrlParts where
  scheme : String
  host : String
  pathname : String
  search : String
  hash : String
deriving DecidableEq

/-- `URL.prototype.href` (for the http(s) URLs the model covers). -/
def urlPartsHref (p : UrlParts) : String :=
  p.scheme ++ "://" ++ p.host ++ p.pathname ++ p.search ++ p.hash

/-- Take characters until one of `stops` is hit; returns (taken, remainder). -/
def spanUntil (stops : List Char) : List Char → List Char × List Char
  | [] => ([], [])
  | c :: rest =>
    if c ∈ stops then ([], c :: rest)
    else
      let (tk, rm) := spanUntil stops rest
      (c :: tk, rm)

/-- Parse `pathname`, `search` and `hash` out of the part of a URL that
follows the host (`""` means pathname `/`). -/
def parsePathSearchHash (l : List Char) : String × String × String :=
  let (path, rest1) := spanUntil ['?', '#'] l
  let (search, hash) := spanUntil ['#'] rest1
  (if path = [] then "/" else String.mk path, String.mk search, String.mk hash)

/-- Parse the part of an absolute URL after `scheme://`. -/
def parseAfterScheme (scheme : String) (l : List Char) : Option UrlParts :=
  let (host, rest) := spanUntil ['/', '?', '#'] l
  if host = [] then none
  else
    let (path, search, hash) := parsePathSearchHash rest
    some { scheme := scheme, host := String.mk host, pathname := path,
           search := search, hash := hash }

/-- `new URL(u)` for absolute http(s) URLs; `none` models the constructor
throwing (or a URL shape outside the model). -/
def parseHttpUrl (u : String) : Option UrlParts :=
  if jsStartsWith u "https://" then parseAfterScheme "https" (u.data.drop 8)
  else if jsStartsWith u "http://" then parseAfterScheme "http" (u.data.drop 7)
  else none

/-- `new URL(u).origin` for absolute http(s) URLs. -/
def urlOrigin (u : String) : Option String :=
  (parseHttpUrl u).map (fun p => p.scheme ++ "://" ++ p.host)

/-- `new URL(ref, base)` as used by the injected scripts: absolute http(s)
references parse on their own; path-absolute (`/...`), query (`?...`) and
fragment (`#...`) references resolve against `base`.  Other relative shapes
are outside the model and return `none` (the callers' `catch` branch). -/
def resolveUrl (base : UrlParts) (ref : String) : Option UrlParts :=
  match parseHttpUrl ref with
  | some p => some p
  | none =>
    if jsStartsWith ref "/" then
      let (path, search, hash) := parsePathSearchHash ref.data
      some { base with pathname := path, search := search, hash := hash }
    else if jsStartsWith ref "?" then
      let (search, hash) := spanUntil ['#'] ref.data
      some { base with search := String.mk search, hash := String.mk hash }
    else if jsStartsWith ref "#" then
      some { base with hash := ref }
    else none

/-! ### server.ts — response headers (lines 63-74) and responses -/

/-- Express response headers, as a lookup function (`setHeader` overwrites,
`removeHeader` deletes; names are compared exactly since the code always uses
the same spellings). -/
def Headers := String → Option String

def emptyHeaders : Headers := fun _ => none

def setHeader (hs : Headers) (n v : String) : Headers :=
  fun m => if m = n then some v else hs m

def removeHeader (hs : Headers) (n : String) : Headers :=
  fun m => if m = n then none else hs m

def getHeader (hs : Headers) (n : String) : Option String := hs n

/-- `setPermissiveHeaders(res)` from server.ts lines 63-74. -/
def setPermissiveHeaders (hs : Headers) : Headers :=
  removeHeader (removeHeader (removeHeader (removeHeader
    (setHeader (setHeader (setHeader hs
      "Access-Control-Allow-Origin" "*")
      "Access-Control-Allow-Methods" "GET, POST, PUT, DELETE, OPTIONS")
      "Access-Control-Allow-Headers" "*")
    "X-Frame-Options") "Content-Security-Policy")
    "Content-Security-Policy-Report-Only") "X-Content-Type-Options"

/-- The body an Express handler sends: `domRewritten html baseUrl` marks the
HTML branch (`res.send(rewriteHtml(html, finalUrl))`), `text` a rewritten
text body, `bytes` the binary passthrough (`response.buffer()` sent
unchanged), `json` a `res.json(...)` error body, `empty` a bare
`res.sendStatus`. -/
inductive RespBody where
  | domRewritten (html : String) (baseUrl : String)
  | text (s : String)
  | bytes (s : String)
  | json (s : String)
  | empty
deriving DecidableEq

structure HttpResponse where
  status : Nat
  headers : Headers
  body : RespBody

/-- The process-wide `currentTargetOrigin` (server.ts line 14). -/
structure ServerState where
  currentTargetOrigin : String
deriving DecidableEq

/-- `processAndSend(response, finalUrl, res)` from server.ts lines 351-404:
sets the permissive headers, forwards `Cache-Control`/`ETag` when truthy,
computes the origin from `finalUrl` (falling back to `currentTargetOrigin`
when `new URL` throws), then dispatches on the content type: HTML gets the
DOM rewrite with a forced `text/html` content type; CSS, JS and JSON get
`stripOriginInText`; everything else is sent as the unmodified buffer. -/
def baseRespHeaders (cacheControl etag : Option String) : Headers :=
  let hs0 := setPermissiveHeaders emptyHeaders
  let hs1 := if optTruthy cacheControl then setHeader hs0 "Cache-Control" (cacheControl.getD "") else hs0
  if optTruthy etag then setHeader hs1 "ETag" (etag.getD "") else hs1

def processAndSend (ct cacheControl etag : Option String) (finalUrl body : String)
    (st : ServerState) : HttpResponse :=
  let hs2 := baseRespHeaders cacheControl etag
  let origin := (urlOrigin finalUrl).getD st.currentTargetOrigin
  if isHtml ct then
    { status := 200, headers := setHeader hs2 "Content-Type" "text/html; charset=utf-8",
      body := .domRewritten body finalUrl }
  else if isCss ct then
    { status := 200, headers := setHeader hs2 "Content-Type" (jsOr ct "text/css"),
      body := .text (stripOriginInCss body origin) }
  else if isJs ct then
    { status := 200,
      headers := if optTruthy ct then setHeader hs2 "Content-Type" (ct.getD "") else hs2,
      body := .text (stripOriginInText body origin) }
  else if ctJson ct then
    { status := 200,
      headers := if optTruthy ct then setHeader hs2 "Content-Type" (ct.getD "") else hs2,
      body := .text (stripOriginInText body origin) }
  else
    { status := 200,
      headers := if optTruthy ct then setHeader hs2 "Content-Type" (ct.getD "") else hs2,
      body := .bytes body }

/-- The `res.status(400).json(...)` response of `app.get("/proxy")` when the
`url` query parameter is missing (server.ts lines 410-412). -/
def missingUrlResponse : HttpResponse :=
  { status := 400,
    headers := setHeader emptyHeaders "Content-Type" "application/json; charset=utf-8",
    body := .json "Missing ?url= parameter" }

/-- The `res.status(502).json(...)` response of the two catch blocks
(server.ts lines 436-440 and 503-507). -/
def upstreamErrorResponse (details url : String) : HttpResponse :=
  { status := 502,
    headers := setHeader emptyHeaders "Content-Type" "application/json; charset=utf-8",
    body := .json ("Failed to fetch: " ++ details ++ " for " ++ url) }

/-- The `res.status(404).json(...)` response of the catch-all route when no
target origin is set (server.ts lines 461-465). -/
def noTargetResponse : HttpResponse :=
  { status := 404,
    headers := setHeader emptyHeaders "Content-Type" "application/json; charset=utf-8",
    body := .json "No target origin set. Load a page via /proxy?url= first." }

/-- The `app.options("*")` preflight handler (server.ts lines 446-449):
permissive headers, then `res.sendStatus(204)`. -/
def optionsResponse : HttpResponse :=
  { status := 204, headers := setPermissiveHeaders emptyHeaders, body := .empty }

/-- The target-origin update of `app.get("/proxy")` (server.ts lines 427-431):
`if (isHtml(contentType)) currentTargetOrigin = finalOrigin`. -/
def updateTargetOrigin (st : ServerState) (ct : Option String) (finalOrigin : String) :
    ServerState :=
  if isHtml ct then { currentTargetOrigin := finalOrigin } else st

/-- What the catch-all route decides to do with a request. -/
inductive CatchAllDecision where
  | respond (r : HttpResponse)
  | forward (url : String)

/-- The catch-all route (server.ts lines 460-509): with no target origin,
respond 404; otherwise forward to `currentTargetOrigin + req.originalUrl`. -/
def catchAll (st : ServerState) (originalUrl : String) : CatchAllDecision :=
  if st.currentTargetOrigin = "" then .respond noTargetResponse
  else .forward (st.currentTargetOrigin ++ originalUrl)

/-- The upstream outcome of the `fetch` in `app.get("/proxy")`. -/
inductive UpstreamOutcome where
  | success (ct cacheControl etag : Option String) (finalUrl : String) (body : String)
  | failure (message : String)

/-- `app.get("/proxy")` (server.ts lines 408-442): reject a falsy `url`
parameter with 400; on a fetch failure (or an unparsable URL — anything the
`try` block throws on) respond 502; on success update the target origin when
the response is HTML, then hand off to `processAndSend`.  Returns the
response and the new server state. -/
def proxyRoute (urlParam : Option String) (outcome : UpstreamOutcome) (st : ServerState) :
    HttpResponse × ServerState :=
  if optTruthy urlParam then
    match outcome with
    | .failure msg => (upstreamErrorResponse msg (urlParam.getD ""), st)
    | .success ct cc etag finalUrl body =>
      match urlOrigin finalUrl with
      | none => (upstreamErrorResponse "Invalid URL" (urlParam.getD ""), st)
      | some finalOrigin =>
        let st2 := updateTargetOrigin st ct finalOrigin
        (processAndSend ct cc etag finalUrl body st2, st2)
  else
    (missingUrlResponse, st)

/-! ### buildRuntimePatch (server.ts lines 171-347) — the generated script -/

/-- ECMAScript `encodeURIComponent` unreserved characters:
`A-Z a-z 0-9 - _ . ! ~ * ' ( )`. -/
def isUriUnreserved (c : Char) : Bool :=
  (('A' ≤ c && c ≤ 'Z') || ('a' ≤ c && c ≤ 'z') || ('0' ≤ c && c ≤ '9')
    || c == '-' || c == '_' || c == '.' || c == '!' || c == '~'
    || c == '*' || c == '\x27' || c == '(' || c == ')')

def hexDigit (n : Nat) : Char :=
  if n < 10 then Char.ofNat (48 + n) else Char.ofNat (55 + n)

def percentEncodeByte (b : Nat) : List Char :=
  ['%', hexDigit (b / 16 % 16), hexDigit (b % 16)]

/-- UTF-8 bytes of a single character. -/
def utf8Bytes (c : Char) : List Nat :=
  let n := c.toNat
  if n < 0x80 then [n]
  else if n < 0x800 then [0xC0 + n / 64, 0x80 + n % 64]
  else if n < 0x10000 then [0xE0 + n / 4096, 0x80 + n / 64 % 64, 0x80 + n % 64]
  else [0xF0 + n / 262144, 0x80 + n / 4096 % 64, 0x80 + n / 64 % 64, 0x80 + n % 64]

/-- ECMAScript `encodeURIComponent`: unreserved characters pass through,
everything else is percent-encoded per UTF-8 byte. -/
def encodeURIComponent (s : String) : String :=
  String.mk ((s.data.map (fun c =>
    if isUriUnreserved c then [c] else (utf8Bytes c).flatMap percentEncodeByte)).flatten)

/-- `strip(u)` from the generated runtime patch (server.ts lines 181-185):
non-strings and falsy values pass through; a value starting with `ORIGIN`
loses that prefix (empty result becomes `/`); everything else is unchanged. -/
def stripRt (origin u : String) : String :=
  if u = "" then u
  else if jsStartsWith u origin then
    (if jsDropChars u (jsLength origin) = "" then "/" else jsDropChars u (jsLength origin))
  else u

/-- `proxyOrStrip(u)` from the generated runtime patch (server.ts lines
188-197): falsy values pass through; `data:`/`blob:`/`javascript:`/fragment
references are untouched; same-origin absolute URLs are prefix-stripped; a
third-party absolute URL (`/^https?:\/\//` and not starting with
`location.origin`) becomes `/proxy?url=` plus the percent-encoded URL;
everything else is unchanged. -/
def proxyOrStrip (origin locOrigin u : String) : String :=
  if u = "" then u
  else if jsStartsWith u "data:" || jsStartsWith u "blob:"
      || jsStartsWith u "javascript:" || jsStartsWith u "#" then u
  else if jsStartsWith u origin then
    (if jsDropChars u (jsLength origin) = "" then "/" else jsDropChars u (jsLength origin))
  else if (jsStartsWith u "http://" || jsStartsWith u "https://")
      && !(jsStartsWith u locOrigin) then
    "/proxy?url=" ++ encodeURIComponent u
  else u

/-- One overridable page primitive: either the browser's native
implementation or a wrapper installed over whatever was there before. -/
inductive PrimImpl where
  | native
  | patched (inner : PrimImpl)
deriving DecidableEq

/-- The page globals the two injected scripts overwrite: the primitives the
runtime patch wraps (server.ts lines 200-341), the `__PROXY_ORIGIN__`
global, the history primitives the highlight bundle wraps (inject.ts lines
671-717), and the bundle's `__PROXY_HIGHLIGHT_INIT__` guard flag. -/
structure PageGlobals where
  fetchImpl : PrimImpl
  xhrOpen : PrimImpl
  createElem : PrimImpl
  appendChildImpl : PrimImpl
  insertBeforeImpl : PrimImpl
  windowOpen : PrimImpl
  imageCtor : PrimImpl
  eventSourceCtor : PrimImpl
  webSocketCtor : PrimImpl
  locationAssign : PrimImpl
  locationReplace : PrimImpl
  historyPushState : PrimImpl
  historyReplaceState : PrimImpl
  proxyOrigin : Option String
  highlightInit : Bool
deriving DecidableEq

/-- A page with no overrides installed. -/
def freshPage : PageGlobals :=
  { fetchImpl := .native, xhrOpen := .native, createElem := .native,
    appendChildImpl := .native, insertBeforeImpl := .native,
    windowOpen := .native, imageCtor := .native, eventSourceCtor := .native,
    webSocketCtor := .native, locationAssign := .native,
    locationReplace := .native, historyPushState := .native,
    historyReplaceState := .native, proxyOrigin := none, highlightInit := false }

/-- Executing the generated runtime patch (server.ts lines 171-347): the IIFE
sets `__PROXY_ORIGIN__` and then installs every override unconditionally —
there is no already-initialized guard, so each execution wraps the current
implementations (including wrappers installed by a previous execution). -/
def runRuntimePatch (origin : String) (g : PageGlobals) : PageGlobals :=
  { g with
    proxyOrigin := some origin,
    fetchImpl := .patched g.fetchImpl,
    xhrOpen := .patched g.xhrOpen,
    createElem := .patched g.createElem,
    appendChildImpl := .patched g.appendChildImpl,
    insertBeforeImpl := .patched g.insertBeforeImpl,
    windowOpen := .patched g.windowOpen,
    imageCtor := .patched g.imageCtor,
    eventSourceCtor := .patched g.eventSourceCtor,
    webSocketCtor := .patched g.webSocketCtor,
    locationAssign := .patched g.locationAssign,
    locationReplace := .patched g.locationReplace }

/-- Executing the highlight bundle (inject.ts lines 12-15 and 671-717): the
IIFE returns immediately when `__PROXY_HIGHLIGHT_INIT__` is already set;
otherwise it sets the flag and installs its overrides (among them the
`history.pushState`/`history.replaceState` wrappers). -/
def runHighlightBundle (g : PageGlobals) : PageGlobals :=
  if g.highlightInit then g
  else
    { g with
      highlightInit := true,
      historyPushState := .patched g.historyPushState,
      historyReplaceState := .patched g.historyReplaceState }

/-! ### inject.ts — link interception and history overrides -/

/-- What the inject.ts click listener (lines 609-668) does with a click whose
nearest enclosing anchor has the given `href`: `ignored` means the listener
returns without calling `preventDefault` (the navigation proceeds);
`blocked url` means the navigation is prevented and a `link-navigation`
message with that `url` is posted to the parent frame. -/
inductive ClickResult where
  | ignored
  | blocked (reportedUrl : String)
deriving DecidableEq

/-- The inject.ts capture-phase click listener (lines 609-668), with the
anchor walk summarized by the optional `href` of the closest `<a>`.
`loc` is `window.location`, `proxyOrigin` is `window.__PROXY_ORIGIN__`
(empty models unset). -/
def clickHandler (inspectorMode : Bool) (href : Option String) (loc : UrlParts)
    (proxyOrigin : String) : ClickResult :=
  if inspectorMode then .ignored
  else
    match href with
    | none => .ignored
    | some h =>
      if h = "" then .ignored
      else if jsStartsWith h "#" || jsStartsWith h "javascript:"
          || jsStartsWith h "mailto:" || jsStartsWith h "tel:" then .ignored
      else
        match resolveUrl loc h with
        | some r =>
          if r.pathname = loc.pathname ∧ r.search = loc.search ∧ r.hash ≠ loc.hash then
            .ignored
          else
            .blocked (if proxyOrigin ≠ "" then
              proxyOrigin ++ r.pathname ++ r.search ++ r.hash
            else urlPartsHref r)
        | none => .blocked h

/-- A `postMessage` payload sent to the parent frame. -/
structure ParentMsg where
  source : String
  type : String
  url : String
  navType : String
deriving DecidableEq

/-- The reported URL of the history overrides (inject.ts lines 674-695 and
697-717): `origin ? origin + pathname + search + hash : resolved.href`, with
the raw URL on resolution failure. -/
def historyReportedUrl (loc : UrlParts) (proxyOrigin u : String) : String :=
  match resolveUrl loc u with
  | some r =>
    if proxyOrigin ≠ "" then proxyOrigin ++ r.pathname ++ r.search ++ r.hash
    else urlPartsHref r
  | none => u

/-- `history.pushState` as overridden by inject.ts (lines 674-695): when the
URL argument is truthy, post a `link-navigation` message; then return without
ever calling the original `pushState`.  The result is the (unchanged) history
entry list together with the posted messages. -/
def pushStatePatched (loc : UrlParts) (proxyOrigin : String) (hist : List String)
    (url : Option String) : List String × List ParentMsg :=
  match url with
  | none => (hist, [])
  | some u =>
    if u = "" then (hist, [])
    else
      (hist, [{ source := "proxy-highlight", type := "link-navigation",
                url := historyReportedUrl loc proxyOrigin u, navType := "pushState" }])

/-- `history.replaceState` as overridden by inject.ts (lines 697-717): posts
the message only when the URL argument is truthy and differs from
`window.location.href`; never calls the original. -/
def replaceStatePatched (loc : UrlParts) (proxyOrigin : String) (hist : List String)
    (url : Option String) : List String × List ParentMsg :=
  match url with
  | none => (hist, [])
  | some u =>
    if u = "" then (hist, [])
    else if u = urlPartsHref loc then (hist, [])
    else
      (hist, [{ source := "proxy-highlight", type := "link-navigation",
                url := historyReportedUrl loc proxyOrigin u, navType := "replaceState" }])

/-- The browser's original `history.pushState` applied to a history modelled
as a list of entry URLs: it adds a new entry (this is what the override would
have to invoke for the in-process mutation to take effect). -/
def origPushState (hist : List String) (u : String) : List String := u :: hist

/-! ### Helper lemmas -/

theorem splitGo_nil (pat : List Char) (fuel : Nat) : splitGo pat fuel [] = [[]] := by
  cases fuel <;> rfl

theorem splitGo_succ_pos (pat : List Char) (fuel : Nat) (c : Char) (rest : List Char)
    (h : pat ≠ [] ∧ leadsWith pat (c :: rest) = true) :
    splitGo pat (fuel + 1) (c :: rest) =
      [] :: splitGo pat fuel (rest.drop (pat.length - 1)) := by
  show (if pat ≠ [] ∧ leadsWith pat (c :: rest) = true then
      [] :: splitGo pat fuel (rest.drop (pat.length - 1))
    else
      match splitGo pat fuel rest with
      | [] => [[c]]
      | p :: ps => (c :: p) :: ps) =
    [] :: splitGo pat fuel (rest.drop (pat.length - 1))
  rw [if_pos h]

theorem splitGo_succ_neg (pat : List Char) (fuel : Nat) (c : Char) (rest p : List Char)
    (ps : List (List Char))
    (h : ¬(pat ≠ [] ∧ leadsWith pat (c :: rest) = true))
    (hsp : splitGo pat fuel rest = p :: ps) :
    splitGo pat (fuel + 1) (c :: rest) = (c :: p) :: ps := by
  show (if pat ≠ [] ∧ leadsWith pat (c :: rest) = true then
      [] :: splitGo pat fuel (rest.drop (pat.length - 1))
    else
      match splitGo pat fuel rest with
      | [] => [[c]]
      | p :: ps => (c :: p) :: ps) =
    (c :: p) :: ps
  rw [if_neg h, hsp]

theorem removeGo_nil (pat : List Char) (fuel : Nat) : removeGo pat fuel [] = [] := by
  cases fuel <;> rfl

theorem removeGo_succ_pos (pat : List Char) (fuel : Nat) (c : Char) (rest : List Char)
    (h : pat ≠ [] ∧ leadsWith pat (c :: rest) = true) :
    removeGo pat (fuel + 1) (c :: rest) = removeGo pat fuel (rest.drop (pat.length - 1)) := by
  show (if pat ≠ [] ∧ leadsWith pat (c :: rest) = true then
      removeGo pat fuel (rest.drop (pat.length - 1))
    else c :: removeGo pat fuel rest) =
    removeGo pat fuel (rest.drop (pat.length - 1))
  rw [if_pos h]

theorem removeGo_succ_neg (pat : List Char) (fuel : Nat) (c : Char) (rest : List Char)
    (h : ¬(pat ≠ [] ∧ leadsWith pat (c :: rest) = true)) :
    removeGo pat (fuel + 1) (c :: rest) = c :: removeGo pat fuel rest := by
  show (if pat ≠ [] ∧ leadsWith pat (c :: rest) = true then
      removeGo pat fuel (rest.drop (pat.length - 1))
    else c :: removeGo pat fuel rest) =
    c :: removeGo pat fuel rest
  rw [if_neg h]

theorem leadsWith_iff (p : List Char) : ∀ t, leadsWith p t = true ↔ p <+: t := by
  induction p with
  | nil => intro t; simp [leadsWith]
  | cons a as ih =>
    intro t
    cases t with
    | nil => simp [leadsWith]
    | cons b bs =>
      simp only [leadsWith, Bool.and_eq_true, beq_iff_eq, ih, List.cons_prefix_cons]

theorem leadsWith_append_drop (p : List Char) :
    ∀ t, leadsWith p t = true → t = p ++ t.drop p.length := by
  induction p with
  | nil => intro t _; simp
  | cons a as ih =>
    intro t h
    cases t with
    | nil => simp [leadsWith] at h
    | cons b bs =>
      simp only [leadsWith, Bool.and_eq_true, beq_iff_eq] at h
      obtain ⟨rfl, h2⟩ := h
      simpa using ih bs h2

theorem splitGo_ne_nil (pat : List Char) (fuel : Nat) (text : List Char) :
    splitGo pat fuel text ≠ [] := by
  match fuel, text with
  | _, [] => rw [splitGo_nil]; simp
  | 0, c :: rest => simp [splitGo]
  | fuel + 1, c :: rest =>
    by_cases h : pat ≠ [] ∧ leadsWith pat (c :: rest) = true
    · rw [splitGo_succ_pos pat fuel c rest h]; simp
    · rcases hsp : splitGo pat fuel rest with _ | ⟨p, ps⟩
      · exact absurd hsp (splitGo_ne_nil pat fuel rest)
      · rw [splitGo_succ_neg pat fuel c rest p ps h hsp]; simp

theorem splitOnL_ne_nil (pat text : List Char) : splitOnL pat text ≠ [] :=
  splitGo_ne_nil pat text.length text

theorem splitOnL_nil (pat : List Char) : splitOnL pat [] = [[]] :=
  splitGo_nil pat 0

theorem splitGo_head_prefix (pat : List Char) :
    ∀ fuel text p ps, splitGo pat fuel text = p :: ps → p <+: text := by
  intro fuel
  induction fuel with
  | zero =>
    intro text p ps h
    cases text with
    | nil =>
      rw [splitGo_nil] at h
      obtain ⟨rfl, rfl⟩ : p = [] ∧ ps = [] := by constructor <;> simp_all
      exact List.nil_prefix
    | cons c rest =>
      obtain ⟨rfl, rfl⟩ : p = c :: rest ∧ ps = [] := by
        simp [splitGo] at h
        constructor <;> simp_all
      exact List.prefix_refl _
  | succ fuel ih =>
    intro text p ps h
    cases text with
    | nil =>
      rw [splitGo_nil] at h
      obtain ⟨rfl, rfl⟩ : p = [] ∧ ps = [] := by constructor <;> simp_all
      exact List.nil_prefix
    | cons c rest =>
      by_cases hcond : pat ≠ [] ∧ leadsWith pat (c :: rest) = true
      · rw [splitGo_succ_pos pat fuel c rest hcond] at h
        obtain rfl : p = [] := by simp_all
        exact List.nil_prefix
      · rcases hsp : splitGo pat fuel rest with _ | ⟨q, qs⟩
        · exact absurd hsp (splitGo_ne_nil pat fuel rest)
        · rw [splitGo_succ_neg pat fuel c rest q qs hcond hsp] at h
          have hq : q <+: rest := ih rest q qs hsp
          obtain ⟨rfl, rfl⟩ : p = c :: q ∧ ps = qs := by constructor <;> simp_all
          exact List.cons_prefix_cons.mpr ⟨rfl, hq⟩

theorem splitGo_no_match (pat : List Char) (hp : pat ≠ []) :
    ∀ fuel text, text.length ≤ fuel →
      ∀ p ∈ splitGo pat fuel text, hasMatch pat p = false := by
  intro fuel
  induction fuel with
  | zero =>
    intro text hlen p hmem
    obtain rfl : text = [] := List.eq_nil_of_length_eq_zero (Nat.le_zero.mp hlen)
    rw [splitGo_nil] at hmem
    obtain rfl : p = [] := by simp_all
    cases pat with
    | nil => exact absurd rfl hp
    | cons a as => simp [hasMatch, leadsWith]
  | succ fuel ih =>
    intro text hlen p hmem
    cases text with
    | nil =>
      rw [splitGo_nil] at hmem
      obtain rfl : p = [] := by simp_all
      cases pat with
      | nil => exact absurd rfl hp
      | cons a as => simp [hasMatch, leadsWith]
    | cons c rest =>
      have hrest : rest.length ≤ fuel := by
        simp only [List.length_cons] at hlen; omega
      by_cases hcond : pat ≠ [] ∧ leadsWith pat (c :: rest) = true
      · rw [splitGo_succ_pos pat fuel c rest hcond] at hmem
        rcases List.mem_cons.mp hmem with rfl | hmem2
        · cases pat with
          | nil => exact absurd rfl hp
          | cons a as => simp [hasMatch, leadsWith]
        · have hdlen : (rest.drop (pat.length - 1)).length ≤ fuel := by
            simp only [List.length_drop]; omega
          exact ih (rest.drop (pat.length - 1)) hdlen p hmem2
      · rcases hsp : splitGo pat fuel rest with _ | ⟨q, qs⟩
        · exact absurd hsp (splitGo_ne_nil pat fuel rest)
        · rw [splitGo_succ_neg pat fuel c rest q qs hcond hsp] at hmem
          rcases List.mem_cons.mp hmem with rfl | hmem2
          · have hq : hasMatch pat q = false :=
              ih rest hrest q (hsp ▸ List.mem_cons_self q qs)
            have hnl : leadsWith pat (c :: q) = false := by
              by_contra hcontra
              have htrue : leadsWith pat (c :: q) = true := by
                cases hv : leadsWith pat (c :: q) with
                | false => exact absurd hv hcontra
                | true => rfl
              have h1 : pat <+: c :: q := (leadsWith_iff pat (c :: q)).mp htrue
              have h2 : q <+: rest := splitGo_head_prefix pat fuel rest q qs hsp
              have h3 : c :: q <+: c :: rest := List.cons_prefix_cons.mpr ⟨rfl, h2⟩
              have h4 : pat <+: c :: rest := h1.trans h3
              exact hcond ⟨hp, (leadsWith_iff pat (c :: rest)).mpr h4⟩
            simp [hasMatch, hnl, hq]
          · exact ih rest hrest p (hsp ▸ List.mem_cons_of_mem q hmem2)

theorem splitOnL_no_match (pat : List Char) (hp : pat ≠ []) :
    ∀ text, ∀ p ∈ splitOnL pat text, hasMatch pat p = false :=
  fun text => splitGo_no_match pat hp text.length text (Nat.le_refl _)

theorem splitGo_of_no_match (pat : List Char) :
    ∀ fuel text, hasMatch pat text = false → splitGo pat fuel text = [text] := by
  intro fuel
  induction fuel with
  | zero =>
    intro text h
    cases text with
    | nil => exact splitGo_nil pat 0
    | cons c rest => simp [splitGo]
  | succ fuel ih =>
    intro text h
    cases text with
    | nil => exact splitGo_nil pat _
    | cons c rest =>
      simp only [hasMatch, Bool.or_eq_false_iff] at h
      obtain ⟨h1, h2⟩ := h
      rw [splitGo_succ_neg pat fuel c rest rest [] (by simp [h1]) (ih rest h2)]

theorem splitOnL_of_no_match (pat text : List Char) (h : hasMatch pat text = false) :
    splitOnL pat text = [text] :=
  splitGo_of_no_match pat text.length text h

theorem removeGo_eq_flatten (pat : List Char) :
    ∀ fuel text, removeGo pat fuel text = (splitGo pat fuel text).flatten := by
  intro fuel
  induction fuel with
  | zero =>
    intro text
    cases text with
    | nil => rw [removeGo_nil, splitGo_nil]; simp
    | cons c rest => simp [removeGo, splitGo]
  | succ fuel ih =>
    intro text
    cases text with
    | nil => rw [removeGo_nil, splitGo_nil]; simp
    | cons c rest =>
      by_cases hcond : pat ≠ [] ∧ leadsWith pat (c :: rest) = true
      · rw [removeGo_succ_pos pat fuel c rest hcond, splitGo_succ_pos pat fuel c rest hcond]
        simpa using ih (rest.drop (pat.length - 1))
      · rcases hsp : splitGo pat fuel rest with _ | ⟨q, qs⟩
        · exact absurd hsp (splitGo_ne_nil pat fuel rest)
        · rw [removeGo_succ_neg pat fuel c rest hcond,
            splitGo_succ_neg pat fuel c rest q qs hcond hsp]
          have := ih rest
          rw [hsp] at this
          simpa using this

theorem removeAllL_eq_flatten (pat text : List Char) :
    removeAllL pat text = (splitOnL pat text).flatten :=
  removeGo_eq_flatten pat text.length text

theorem joinWith_splitGo (pat : List Char) :
    ∀ fuel text, joinWith pat (splitGo pat fuel text) = text := by
  intro fuel
  induction fuel with
  | zero =>
    intro text
    cases text with
    | nil => rw [splitGo_nil]; rfl
    | cons c rest => simp [splitGo, joinWith]
  | succ fuel ih =>
    intro text
    cases text with
    | nil => rw [splitGo_nil]; rfl
    | cons c rest =>
      by_cases hcond : pat ≠ [] ∧ leadsWith pat (c :: rest) = true
      · rw [splitGo_succ_pos pat fuel c rest hcond]
        rcases hsp : splitGo pat fuel (rest.drop (pat.length - 1)) with _ | ⟨q, qs⟩
        · exact absurd hsp (splitGo_ne_nil pat fuel _)
        · have ihd := ih (rest.drop (pat.length - 1))
          rw [hsp] at ihd
          obtain ⟨hp, hl⟩ := hcond
          have hexp : c :: rest = pat ++ (c :: rest).drop pat.length :=
            leadsWith_append_drop pat (c :: rest) hl
          have hdrop : (c :: rest).drop pat.length = rest.drop (pat.length - 1) := by
            cases pat with
            | nil => exact absurd rfl hp
            | cons a as => simp
          calc joinWith pat ([] :: q :: qs)
              = pat ++ joinWith pat (q :: qs) := by simp [joinWith]
            _ = pat ++ rest.drop (pat.length - 1) := by rw [ihd]
            _ = c :: rest := by rw [← hdrop, ← hexp]
      · rcases hsp : splitGo pat fuel rest with _ | ⟨q, qs⟩
        · exact absurd hsp (splitGo_ne_nil pat fuel rest)
        · rw [splitGo_succ_neg pat fuel c rest q qs hcond hsp]
          have ihr := ih rest
          rw [hsp] at ihr
          cases qs with
          | nil => simpa [joinWith] using ihr
          | cons q2 qs2 => simpa [joinWith] using ihr

theorem joinWith_splitOnL (pat text : List Char) :
    joinWith pat (splitOnL pat text) = text :=
  joinWith_splitGo pat text.length text

theorem string_mk_data (s : String) : String.mk s.data = s := by
  cases s
  rfl

theorem rewriteTextIfContains_eq_splitJoin (origin : String) (h : origin ≠ "") (v : String) :
    rewriteTextIfContains origin v = splitJoin origin v := by
  unfold rewriteTextIfContains splitJoin
  by_cases hv : v = ""
  · subst hv
    rw [if_pos rfl]
    have h1 : ("" : String).data = [] := rfl
    rw [h1, splitOnL_nil]
    rfl
  · rw [if_neg hv]
    by_cases hm : jsIncludes v origin = true
    · rw [if_pos hm]
      unfold stripOriginInText
      rw [if_neg h, removeAllL_eq_flatten]
    · rw [if_neg hm]
      unfold jsIncludes at hm
      have hm2 : hasMatch origin.data v.data = false := by
        cases hval : hasMatch origin.data v.data with
        | false => rfl
        | true => exact absurd hval hm
      rw [splitOnL_of_no_match origin.data v.data hm2]
      simp [string_mk_data]

theorem rewriteScript_eq_splitJoin (origin : String) (h : origin ≠ "") (s : InlineScript) :
    rewriteScript origin s =
      (if s.proxyInjected then s else { s with content := splitJoin origin s.content }) := by
  unfold rewriteScript
  by_cases hinj : s.proxyInjected = true
  · rw [if_pos hinj, if_pos hinj]
  · rw [if_neg hinj, if_neg hinj,
      ← rewriteTextIfContains_eq_splitJoin origin h s.content]
    unfold rewriteTextIfContains
    by_cases hv : s.content = ""
    · rw [if_pos hv, if_pos hv]
    · rw [if_neg hv, if_neg hv]
      by_cases hm : jsIncludes s.content origin = true
      · rw [if_pos hm, if_pos hm]
      · rw [if_neg hm, if_neg hm]

theorem primImpl_patched_ne (p : PrimImpl) : PrimImpl.patched p ≠ p := by
  induction p with
  | native => intro h; exact PrimImpl.noConfusion h
  | patched q ih =>
    intro h
    exact ih (PrimImpl.patched.inj h)


theorem string_eq_empty_iff (s : String) : s = "" ↔ s.data = [] := by
  constructor
  · intro h
    rw [h]
  · intro h
    have h2 : String.mk s.data = String.mk [] := congrArg String.mk h
    rw [string_mk_data] at h2
    exact h2

theorem leadsWith_false_of_head_ne (a b : Char) (as bs : List Char) (h : ¬a = b) :
    leadsWith (a :: as) (b :: bs) = false := by
  simp [leadsWith, h]

theorem jsStartsWith_ne_empty (u p : String) (hp : p ≠ "") (h : jsStartsWith u p = true) :
    u ≠ "" := by
  intro hu
  subst hu
  unfold jsStartsWith at h
  rcases hpd : p.data with _ | ⟨c, cs⟩
  · exact hp ((string_eq_empty_iff p).mpr hpd)
  · rw [hpd] at h
    have : leadsWith (c :: cs) ("" : String).data = false := rfl
    rw [this] at h
    exact Bool.false_ne_true h

theorem getHeader_setHeader_same (hs : Headers) (n v : String) :
    getHeader (setHeader hs n v) n = some v := by
  simp [getHeader, setHeader]

theorem getHeader_setHeader_ne (hs : Headers) (n v m : String) (h : m ≠ n) :
    getHeader (setHeader hs n v) m = getHeader hs m := by
  simp [getHeader, setHeader, h]

theorem getHeader_removeHeader_same (hs : Headers) (n : String) :
    getHeader (removeHeader hs n) n = none := by
  simp [getHeader, removeHeader]

theorem getHeader_removeHeader_ne (hs : Headers) (n m : String) (h : m ≠ n) :
    getHeader (removeHeader hs n) m = getHeader hs m := by
  simp [getHeader, removeHeader, h]

theorem baseRespHeaders_lookup (cc etag : Option String) :
    getHeader (baseRespHeaders cc etag) "Access-Control-Allow-Origin" = some "*" ∧
    getHeader (baseRespHeaders cc etag) "Access-Control-Allow-Methods"
      = some "GET, POST, PUT, DELETE, OPTIONS" ∧
    getHeader (baseRespHeaders cc etag) "Access-Control-Allow-Headers" = some "*" ∧
    getHeader (baseRespHeaders cc etag) "X-Frame-Options" = none ∧
    getHeader (baseRespHeaders cc etag) "Content-Security-Policy" = none ∧
    getHeader (baseRespHeaders cc etag) "Content-Security-Policy-Report-Only" = none ∧
    getHeader (baseRespHeaders cc etag) "X-Content-Type-Options" = none ∧
    getHeader (baseRespHeaders cc etag) "Content-Type" = none := by
  unfold baseRespHeaders setPermissiveHeaders
  by_cases hcc : optTruthy cc = true <;> by_cases he : optTruthy etag = true <;>
    simp [hcc, he, getHeader, setHeader, removeHeader, emptyHeaders]

theorem setPermissiveHeaders_lookup (hs : Headers) :
    getHeader (setPermissiveHeaders hs) "Access-Control-Allow-Origin" = some "*" ∧
    getHeader (setPermissiveHeaders hs) "Access-Control-Allow-Methods"
      = some "GET, POST, PUT, DELETE, OPTIONS" ∧
    getHeader (setPermissiveHeaders hs) "Access-Control-Allow-Headers" = some "*" ∧
    getHeader (setPermissiveHeaders hs) "X-Frame-Options" = none ∧
    getHeader (setPermissiveHeaders hs) "Content-Security-Policy" = none ∧
    getHeader (setPermissiveHeaders hs) "Content-Security-Policy-Report-Only" = none ∧
    getHeader (setPermissiveHeaders hs) "X-Content-Type-Options" = none := by
  unfold setPermissiveHeaders
  simp [getHeader, setHeader, removeHeader]

theorem processAndSend_headers_lookup (ct cc etag : Option String) (finalUrl body : String)
    (st : ServerState) (n : String) (hn : n ≠ "Content-Type") :
    getHeader (processAndSend ct cc etag finalUrl body st).headers n
      = getHeader (baseRespHeaders cc etag) n := by
  unfold processAndSend
  by_cases h1 : isHtml ct = true
  · simp only [h1, if_true]
    exact getHeader_setHeader_ne _ _ _ _ hn
  · simp only [h1, if_false, Bool.false_eq_true]
    by_cases h2 : isCss ct = true
    · simp only [h2, if_true]
      exact getHeader_setHeader_ne _ _ _ _ hn
    · simp only [h2, if_false, Bool.false_eq_true]
      by_cases h3 : isJs ct = true
      · simp only [h3, if_true]
        by_cases h5 : optTruthy ct = true
        · simp only [h5, if_true]
          exact getHeader_setHeader_ne _ _ _ _ hn
        · simp only [h5, if_false, Bool.false_eq_true]
      · simp only [h3, if_false, Bool.false_eq_true]
        by_cases h4 : ctJson ct = true
        · simp only [h4, if_true]
          by_cases h5 : optTruthy ct = true
          · simp only [h5, if_true]
            exact getHeader_setHeader_ne _ _ _ _ hn
          · simp only [h5, if_false, Bool.false_eq_true]
        · simp only [h4, if_false, Bool.false_eq_true]
          by_cases h5 : optTruthy ct = true
          · simp only [h5, if_true]
            exact getHeader_setHeader_ne _ _ _ _ hn
          · simp only [h5, if_false, Bool.false_eq_true]

/-! ### Claims -/

/-- C3: while `currentTargetOrigin` is unset every catch-all request gets the
explicit 404 "no target configured" client error (not a crash), and once a
successful HTML proxy has set the target origin to `O`, a catch-all request
with original path and query `path` is forwarded upstream to exactly
`O ++ path`. -/
theorem claim3_catchAll_routing (st : ServerState) (ct : Option String) (O path : String)
    (hct : isHtml ct = true) (hO : O ≠ "") :
    (∀ p : String, catchAll { currentTargetOrigin := "" } p = .respond noTargetResponse) ∧
    noTargetResponse.status = 404 ∧
    noTargetResponse.body = .json "No target origin set. Load a page via /proxy?url= first." ∧
    catchAll (updateTargetOrigin st ct O) path = .forward (O ++ path) := by
  refine ⟨fun p => ?_, rfl, rfl, ?_⟩
  · unfold catchAll
    rw [if_pos rfl]
  · unfold updateTargetOrigin
    rw [if_pos hct]
    unfold catchAll
    rw [if_neg hO]

theorem claim3_catchAll_routing_witness :
    isHtml (some "text/html") = true ∧ ("https://t.example" : String) ≠ "" ∧
    catchAll (updateTargetOrigin { currentTargetOrigin := "" } (some "text/html")
      "https://t.example") "/a/b?c=1" = .forward "https://t.example/a/b?c=1" := by
  refine ⟨by decide, by decide, ?_⟩
  have h := (claim3_catchAll_routing { currentTargetOrigin := "" } (some "text/html")
    "https://t.example" "/a/b?c=1" (by decide) (by decide)).2.2.2
  rw [h]
  have happ : ("https://t.example" : String) ++ "/a/b?c=1" = "https://t.example/a/b?c=1" := by
    decide
  rw [happ]

/-- C4: `proxyOrStrip(u)` leaves `u` untouched when it starts with `data:`,
`blob:`, `javascript:` or `#`; otherwise, when `u` starts with the target
origin it behaves exactly like `strip` (prefix removal, empty result
normalized to `/`); otherwise, a third-party absolute URL (matching
`http(s)://` and not starting with the page origin) becomes `/proxy?url=`
followed by the `encodeURIComponent`-encoded original URL; every other
string is returned unchanged. -/
theorem claim4_proxyOrStrip_cases (origin loc u : String) :
    ((jsStartsWith u "data:" || jsStartsWith u "blob:"
        || jsStartsWith u "javascript:" || jsStartsWith u "#") = true →
      proxyOrStrip origin loc u = u) ∧
    ((jsStartsWith u "data:" || jsStartsWith u "blob:"
        || jsStartsWith u "javascript:" || jsStartsWith u "#") = false →
      jsStartsWith u origin = true →
      proxyOrStrip origin loc u = stripRt origin u) ∧
    ((jsStartsWith u "data:" || jsStartsWith u "blob:"
        || jsStartsWith u "javascript:" || jsStartsWith u "#") = false →
      jsStartsWith u origin = false →
      (jsStartsWith u "http://" || jsStartsWith u "https://") = true →
      jsStartsWith u loc = false →
      proxyOrStrip origin loc u = "/proxy?url=" ++ encodeURIComponent u) ∧
    ((jsStartsWith u "data:" || jsStartsWith u "blob:"
        || jsStartsWith u "javascript:" || jsStartsWith u "#") = false →
      jsStartsWith u origin = false →
      ((jsStartsWith u "http://" || jsStartsWith u "https://")
        && !(jsStartsWith u loc)) = false →
      proxyOrStrip origin loc u = u) := by
  refine ⟨?_, ?_, ?_, ?_⟩
  · intro hsp
    have hne : u ≠ "" := by
      rcases Bool.or_eq_true_iff.mp hsp with h4 | h4
      · rcases Bool.or_eq_true_iff.mp h4 with h3 | h3
        · rcases Bool.or_eq_true_iff.mp h3 with h2 | h2
          · exact jsStartsWith_ne_empty u "data:" (by decide) h2
          · exact jsStartsWith_ne_empty u "blob:" (by decide) h2
        · exact jsStartsWith_ne_empty u "javascript:" (by decide) h3
      · exact jsStartsWith_ne_empty u "#" (by decide) h4
    unfold proxyOrStrip
    rw [if_neg hne, if_pos hsp]
  · intro hsp horig
    by_cases hne : u = ""
    · subst hne
      unfold proxyOrStrip stripRt
      rw [if_pos rfl, if_pos rfl]
    · unfold proxyOrStrip stripRt
      rw [if_neg hne, if_neg hne, if_neg (by simp [hsp]), if_pos horig, if_pos horig]
  · intro hsp horig habs hloc
    have hne : u ≠ "" := by
      rcases Bool.or_eq_true_iff.mp habs with h2 | h2
      · exact jsStartsWith_ne_empty u "http://" (by decide) h2
      · exact jsStartsWith_ne_empty u "https://" (by decide) h2
    unfold proxyOrStrip
    rw [if_neg hne, if_neg (by simp [hsp]), if_neg (by simp [horig]),
      if_pos (by simp [habs, hloc])]
  · intro hsp horig hthird
    by_cases hne : u = ""
    · subst hne
      unfold proxyOrStrip
      rw [if_pos rfl]
    · unfold proxyOrStrip
      rw [if_neg hne, if_neg (by simp [hsp]), if_neg (by simp [horig]),
        if_neg (by simp [hthird])]

theorem claim4_proxyOrStrip_cases_witness :
    proxyOrStrip "https://t.example" "http://localhost:3001" "data:text/plain,hi"
      = "data:text/plain,hi" ∧
    proxyOrStrip "https://t.example" "http://localhost:3001" "https://t.example/x"
      = stripRt "https://t.example" "https://t.example/x" ∧
    stripRt "https://t.example" "https://t.example/x" = "/x" ∧
    proxyOrStrip "https://t.example" "http://localhost:3001" "https://other.example/y"
      = "/proxy?url=" ++ encodeURIComponent "https://other.example/y" ∧
    "/proxy?url=" ++ encodeURIComponent "https://other.example/y"
      = "/proxy?url=https%3A%2F%2Fother.example%2Fy" ∧
    proxyOrStrip "https://t.example" "http://localhost:3001" "/relative/path"
      = "/relative/path" :=
  ⟨(claim4_proxyOrStrip_cases "https://t.example" "http://localhost:3001"
      "data:text/plain,hi").1 (by decide),
   (claim4_proxyOrStrip_cases "https://t.example" "http://localhost:3001"
      "https://t.example/x").2.1 (by decide) (by decide),
   by decide,
   (claim4_proxyOrStrip_cases "https://t.example" "http://localhost:3001"
      "https://other.example/y").2.2.1 (by decide) (by decide) (by decide) (by decide),
   by decide,
   (claim4_proxyOrStrip_cases "https://t.example" "http://localhost:3001"
      "/relative/path").2.2.2 (by decide) (by decide) (by decide)⟩

/-- C10: `stripOriginInText(text, origin)` returns `text` completely unchanged
when the origin is empty, and otherwise — the origin being regex-escaped, so
the global replace matches only the literal origin — removes exactly the
literal occurrences of the origin: the result is the split of `text` on the
origin substring with the pieces concatenated, where the pieces joined back
with the origin separator reconstruct `text` and each piece is free of the
origin. -/
theorem claim10_stripOriginInText_spec (text origin : String) (h : origin ≠ "") :
    stripOriginInText text "" = text ∧
    stripOriginInText text origin = String.mk (splitOnL origin.data text.data).flatten ∧
    joinWith origin.data (splitOnL origin.data text.data) = text.data ∧
    (∀ p ∈ splitOnL origin.data text.data, hasMatch origin.data p = false) := by
  have hod : origin.data ≠ [] := fun hd => h ((string_eq_empty_iff origin).mpr hd)
  refine ⟨?_, ?_, joinWith_splitOnL origin.data text.data,
    splitOnL_no_match origin.data hod text.data⟩
  · unfold stripOriginInText
    rw [if_pos rfl]
  · unfold stripOriginInText
    rw [if_neg h, removeAllL_eq_flatten]

theorem claim10_stripOriginInText_spec_witness :
    ("https://t.example" : String) ≠ "" ∧
    stripOriginInText "p https://t.example/a q https://t.example/b r" "https://t.example"
      = String.mk (splitOnL ("https://t.example" : String).data
          ("p https://t.example/a q https://t.example/b r" : String).data).flatten ∧
    stripOriginInText "p https://t.example/a q https://t.example/b r" "https://t.example"
      = "p /a q /b r" := by
  refine ⟨by decide, ?_, by decide⟩
  exact (claim10_stripOriginInText_spec "p https://t.example/a q https://t.example/b r"
    "https://t.example" (by decide)).2.1

/-- C1 counterexample: the url-attribute pass of `rewriteHtml` only strips the
origin when the attribute value starts with it, so an `href` of
`/x?u=https://t.example/y` passes through the rewriter completely unchanged
and the rewritten attribute value still contains the resolved target origin
`https://t.example` as a substring. -/
theorem claim1_origin_free_counterexample :
    (rewriteHtml "https://t.example"
      { urlAttrs := ["/x?u=https://t.example/y"], srcsets := [], styleAttrs := [],
        styleBodies := [], scripts := [], patchScripts := 0,
        bundleScripts := 0 }).urlAttrs = ["/x?u=https://t.example/y"] ∧
    jsIncludes "/x?u=https://t.example/y" "https://t.example" = true := by
  constructor
  · decide
  · decide

/-- C1 amended: `rewriteHtml` strips the origin prefix from every
`src`/`href`/`action`/`data`/`poster` attribute value that starts with the
origin (`stripUrlAttr`; occurrences in non-prefix positions survive), and in
`srcset` values, inline styles, `<style>` bodies and non-proxy-injected
inline scripts it deletes exactly the occurrences of the origin present in
the input: each such text becomes its origin-split pieces concatenated, and
every piece is occurrence-free (so only deletion-adjacency can re-create the
substring). -/
theorem claim1_origin_free_amended (origin : String) (h : origin ≠ "") (d : HtmlDoc) :
    (rewriteHtml origin d).urlAttrs = d.urlAttrs.map (stripUrlAttr origin) ∧
    (rewriteHtml origin d).srcsets = d.srcsets.map (splitJoin origin) ∧
    (rewriteHtml origin d).styleAttrs = d.styleAttrs.map (splitJoin origin) ∧
    (rewriteHtml origin d).styleBodies = d.styleBodies.map (splitJoin origin) ∧
    (rewriteHtml origin d).scripts = d.scripts.map (fun s =>
      if s.proxyInjected then s else { s with content := splitJoin origin s.content }) ∧
    (∀ v : String, ∀ p ∈ splitOnL origin.data v.data, hasMatch origin.data p = false) := by
  have hfun : rewriteTextIfContains origin = splitJoin origin :=
    funext (rewriteTextIfContains_eq_splitJoin origin h)
  have hscript : rewriteScript origin = (fun s : InlineScript =>
      if s.proxyInjected then s else { s with content := splitJoin origin s.content }) :=
    funext (rewriteScript_eq_splitJoin origin h)
  have hod : origin.data ≠ [] := fun hd => h ((string_eq_empty_iff origin).mpr hd)
  refine ⟨rfl, ?_, ?_, ?_, ?_, fun v => splitOnL_no_match origin.data hod v.data⟩
  · show d.srcsets.map (rewriteTextIfContains origin) = d.srcsets.map (splitJoin origin)
    rw [hfun]
  · show d.styleAttrs.map (rewriteTextIfContains origin) = d.styleAttrs.map (splitJoin origin)
    rw [hfun]
  · show d.styleBodies.map (rewriteTextIfContains origin) = d.styleBodies.map (splitJoin origin)
    rw [hfun]
  · show d.scripts.map (rewriteScript origin) = _
    rw [hscript]

theorem claim1_origin_free_amended_witness :
    ("https://t.example" : String) ≠ "" ∧
    (rewriteHtml "https://t.example"
      { urlAttrs := ["https://t.example/img.png"],
        srcsets := ["https://t.example/a 1x, https://t.example/b 2x"],
        styleAttrs := [], styleBodies := [],
        scripts := [⟨false, "fetch(\x22https://t.example/api\x22)"⟩], patchScripts := 0,
        bundleScripts := 0 }).srcsets
      = (["https://t.example/a 1x, https://t.example/b 2x"].map
          (splitJoin "https://t.example")) ∧
    (["https://t.example/a 1x, https://t.example/b 2x"].map (splitJoin "https://t.example"))
      = ["/a 1x, /b 2x"] := by
  refine ⟨by decide, ?_, by decide⟩
  exact (claim1_origin_free_amended "https://t.example" (by decide)
    { urlAttrs := ["https://t.example/img.png"],
      srcsets := ["https://t.example/a 1x, https://t.example/b 2x"],
      styleAttrs := [], styleBodies := [],
      scripts := [⟨false, "fetch(\x22https://t.example/api\x22)"⟩], patchScripts := 0,
      bundleScripts := 0 }).2.1

/-- C2 counterexample: `rewriteHtml` is not idempotent — applied a second time
to its own output (same origin) it injects a second runtime patch script and
a second highlight bundle script, so neither script occurs exactly once after
two runs. -/
theorem claim2_idempotent_counterexample :
    rewriteHtml "https://t.example" (rewriteHtml "https://t.example"
      { urlAttrs := [], srcsets := [], styleAttrs := [], styleBodies := [],
        scripts := [], patchScripts := 0, bundleScripts := 0 })
      ≠ rewriteHtml "https://t.example"
      { urlAttrs := [], srcsets := [], styleAttrs := [], styleBodies := [],
        scripts := [], patchScripts := 0, bundleScripts := 0 } ∧
    (rewriteHtml "https://t.example" (rewriteHtml "https://t.example"
      { urlAttrs := [], srcsets := [], styleAttrs := [], styleBodies := [],
        scripts := [], patchScripts := 0, bundleScripts := 0 })).patchScripts = 2 ∧
    (rewriteHtml "https://t.example"
      { urlAttrs := [], srcsets := [], styleAttrs := [], styleBodies := [],
        scripts := [], patchScripts := 0, bundleScripts := 0 }).patchScripts = 1 ∧
    (rewriteHtml "https://t.example" (rewriteHtml "https://t.example"
      { urlAttrs := [], srcsets := [], styleAttrs := [], styleBodies := [],
        scripts := [], patchScripts := 0, bundleScripts := 0 })).bundleScripts = 2 := by
  refine ⟨by decide, by decide, by decide, by decide⟩

/-- C2 amended: `rewriteHtml` is never idempotent — the script injection is
unguarded, so every application adds exactly one more runtime patch script
and one more highlight bundle script, and a second application therefore
always differs from the first (the injected scripts accumulate instead of
occurring exactly once). -/
theorem claim2_idempotent_amended (origin : String) (d : HtmlDoc) :
    (rewriteHtml origin d).patchScripts = d.patchScripts + 1 ∧
    (rewriteHtml origin d).bundleScripts = d.bundleScripts + 1 ∧
    (rewriteHtml origin (rewriteHtml origin d)).patchScripts = d.patchScripts + 2 ∧
    (rewriteHtml origin (rewriteHtml origin d)).bundleScripts = d.bundleScripts + 2 ∧
    rewriteHtml origin (rewriteHtml origin d) ≠ rewriteHtml origin d := by
  refine ⟨rfl, rfl, rfl, rfl, ?_⟩
  intro hEq
  have h2 := congrArg HtmlDoc.patchScripts hEq
  simp only [rewriteHtml] at h2
  omega

/-- C5 counterexample: dispatch covers only `text/css`,
`javascript`/`ecmascript` and `application/json` as substitution cases, so a
`text/plain` body — a "text-ish" content type — is passed through unchanged
even though it contains the resolved origin, where the claimed substitution
would have removed it. -/
theorem claim5_dispatch_counterexample :
    (processAndSend (some "text/plain") none none "https://t.example/u"
      "pre https://t.example/x post" { currentTargetOrigin := "" }).body
      = .bytes "pre https://t.example/x post" ∧
    jsIncludes "pre https://t.example/x post" "https://t.example" = true ∧
    stripOriginInText "pre https://t.example/x post" "https://t.example"
      ≠ "pre https://t.example/x post" ∧
    isHtml (some "text/plain") = false ∧ isCss (some "text/plain") = false ∧
    isJs (some "text/plain") = false ∧ ctJson (some "text/plain") = false := by
  refine ⟨by decide, by decide, by decide, by decide, by decide, by decide, by decide⟩

/-- C5 amended: `processAndSend` dispatches purely on the content type, but
the substitution cases are exactly `text/css`, `javascript`/`ecmascript` and
`application/json`: HTML gets the DOM rewrite with a forced
`text/html; charset=utf-8` content type; CSS/JS/JSON bodies get
`stripOriginInText` with the content-type header preserved; every other
content type — including other text-ish ones — is passed through
byte-for-byte with the original content-type header preserved when present. -/
theorem claim5_dispatch_amended (ct cc etag : Option String) (finalUrl body : String)
    (st : ServerState) :
    (isHtml ct = true →
      (processAndSend ct cc etag finalUrl body st).body = .domRewritten body finalUrl ∧
      getHeader (processAndSend ct cc etag finalUrl body st).headers "Content-Type"
        = some "text/html; charset=utf-8") ∧
    (isHtml ct = false → isCss ct = true →
      (processAndSend ct cc etag finalUrl body st).body
        = .text (stripOriginInText body ((urlOrigin finalUrl).getD st.currentTargetOrigin)) ∧
      getHeader (processAndSend ct cc etag finalUrl body st).headers "Content-Type"
        = some (jsOr ct "text/css")) ∧
    (isHtml ct = false → isCss ct = false → isJs ct = true →
      (processAndSend ct cc etag finalUrl body st).body
        = .text (stripOriginInText body ((urlOrigin finalUrl).getD st.currentTargetOrigin)) ∧
      getHeader (processAndSend ct cc etag finalUrl body st).headers "Content-Type"
        = some (ct.getD "")) ∧
    (isHtml ct = false → isCss ct = false → isJs ct = false → ctJson ct = true →
      (processAndSend ct cc etag finalUrl body st).body
        = .text (stripOriginInText body ((urlOrigin finalUrl).getD st.currentTargetOrigin)) ∧
      getHeader (processAndSend ct cc etag finalUrl body st).headers "Content-Type"
        = some (ct.getD "")) ∧
    (isHtml ct = false → isCss ct = false → isJs ct = false → ctJson ct = false →
      (processAndSend ct cc etag finalUrl body st).body = .bytes body ∧
      getHeader (processAndSend ct cc etag finalUrl body st).headers "Content-Type"
        = (if optTruthy ct = true then some (ct.getD "") else none)) := by
  refine ⟨?_, ?_, ?_, ?_, ?_⟩
  · intro h1
    simp only [processAndSend, h1, if_true]
    exact ⟨trivial, getHeader_setHeader_same _ _ _⟩
  · intro h1 h2
    simp only [processAndSend, h1, h2, Bool.false_eq_true, if_false, if_true]
    exact ⟨rfl, getHeader_setHeader_same _ _ _⟩
  · intro h1 h2 h3
    have h5 : optTruthy ct = true := by
      unfold isJs at h3
      exact (Bool.and_eq_true _ _ ▸ h3).1
    simp only [processAndSend, h1, h2, h3, h5, Bool.false_eq_true, if_false, if_true]
    exact ⟨trivial, getHeader_setHeader_same _ _ _⟩
  · intro h1 h2 h3 h4
    have h5 : optTruthy ct = true := by
      unfold ctJson at h4
      exact (Bool.and_eq_true _ _ ▸ h4).1
    simp only [processAndSend, h1, h2, h3, h4, h5, Bool.false_eq_true, if_false, if_true]
    exact ⟨trivial, getHeader_setHeader_same _ _ _⟩
  · intro h1 h2 h3 h4
    simp only [processAndSend, h1, h2, h3, h4, Bool.false_eq_true, if_false]
    refine ⟨trivial, ?_⟩
    by_cases h5 : optTruthy ct = true
    · simp only [h5, if_true]
      exact getHeader_setHeader_same _ _ _
    · simp only [h5, Bool.false_eq_true, if_false]
      exact (baseRespHeaders_lookup cc etag).2.2.2.2.2.2.2

theorem claim5_dispatch_amended_witness :
    isHtml (some "text/html") = true ∧
    (processAndSend (some "text/html") none none "https://t.example/p" "<html></html>"
      { currentTargetOrigin := "" }).body = .domRewritten "<html></html>" "https://t.example/p" ∧
    isHtml (some "text/css") = false ∧ isCss (some "text/css") = true ∧
    (processAndSend (some "text/css") none none "https://t.example/s.css"
      "a did-not-parse url" { currentTargetOrigin := "" }).body
      = .text (stripOriginInText "a did-not-parse url"
          ((urlOrigin "https://t.example/s.css").getD "")) ∧
    isJs (some "text/javascript") = true ∧
    (processAndSend (some "text/javascript") none none "https://t.example/s.js"
      "x" { currentTargetOrigin := "" }).body
      = .text (stripOriginInText "x" ((urlOrigin "https://t.example/s.js").getD "")) ∧
    ctJson (some "application/json") = true ∧
    (processAndSend (some "application/json") none none "https://t.example/d.json"
      "y" { currentTargetOrigin := "" }).body
      = .text (stripOriginInText "y" ((urlOrigin "https://t.example/d.json").getD "")) ∧
    ctJson (some "image/png") = false ∧
    (processAndSend (some "image/png") none none "https://t.example/i.png"
      "bin" { currentTargetOrigin := "" }).body = .bytes "bin" :=
  ⟨by decide,
   ((claim5_dispatch_amended (some "text/html") none none "https://t.example/p" "<html></html>"
      { currentTargetOrigin := "" }).1 (by decide)).1,
   by decide, by decide,
   ((claim5_dispatch_amended (some "text/css") none none "https://t.example/s.css"
      "a did-not-parse url" { currentTargetOrigin := "" }).2.1 (by decide) (by decide)).1,
   by decide,
   ((claim5_dispatch_amended (some "text/javascript") none none "https://t.example/s.js"
      "x" { currentTargetOrigin := "" }).2.2.1 (by decide) (by decide) (by decide)).1,
   by decide,
   ((claim5_dispatch_amended (some "application/json") none none "https://t.example/d.json"
      "y" { currentTargetOrigin := "" }).2.2.2.1 (by decide) (by decide) (by decide) (by decide)).1,
   by decide,
   ((claim5_dispatch_amended (some "image/png") none none "https://t.example/i.png"
      "bin" { currentTargetOrigin := "" }).2.2.2.2 (by decide) (by decide) (by decide) (by decide)).1⟩

/-- C6 counterexample: the 400 missing-url response is produced before
`setPermissiveHeaders` ever runs (that only happens inside `processAndSend`
and the OPTIONS handler), so it carries no
`Access-Control-Allow-Origin` header at all. -/
theorem claim6_cors_counterexample :
    (proxyRoute none (.failure "connect ECONNREFUSED") { currentTargetOrigin := "" }).1.status
      = 400 ∧
    getHeader (proxyRoute none (.failure "connect ECONNREFUSED")
      { currentTargetOrigin := "" }).1.headers "Access-Control-Allow-Origin" = none := by
  refine ⟨rfl, by decide⟩

/-- C6 amended: the permissive header set (`Access-Control-Allow-Origin: *`,
allow-methods GET/POST/PUT/DELETE/OPTIONS, allow-headers `*`, with
`X-Frame-Options`, both CSP variants and `X-Content-Type-Options` absent) is
guaranteed on every `processAndSend` response and on OPTIONS preflights —
but not on the 400 missing-url, 404 no-target, or 502 upstream-failure
responses, which carry no CORS headers. -/
theorem claim6_cors_amended (ct cc etag : Option String) (finalUrl body : String)
    (st : ServerState) (details url : String) :
    (getHeader (processAndSend ct cc etag finalUrl body st).headers
        "Access-Control-Allow-Origin" = some "*" ∧
      getHeader (processAndSend ct cc etag finalUrl body st).headers
        "Access-Control-Allow-Methods" = some "GET, POST, PUT, DELETE, OPTIONS" ∧
      getHeader (processAndSend ct cc etag finalUrl body st).headers
        "Access-Control-Allow-Headers" = some "*" ∧
      getHeader (processAndSend ct cc etag finalUrl body st).headers
        "X-Frame-Options" = none ∧
      getHeader (processAndSend ct cc etag finalUrl body st).headers
        "Content-Security-Policy" = none ∧
      getHeader (processAndSend ct cc etag finalUrl body st).headers
        "Content-Security-Policy-Report-Only" = none ∧
      getHeader (processAndSend ct cc etag finalUrl body st).headers
        "X-Content-Type-Options" = none) ∧
    (optionsResponse.status = 204 ∧
      getHeader optionsResponse.headers "Access-Control-Allow-Origin" = some "*" ∧
      getHeader optionsResponse.headers "Access-Control-Allow-Methods"
        = some "GET, POST, PUT, DELETE, OPTIONS" ∧
      getHeader optionsResponse.headers "Access-Control-Allow-Headers" = some "*" ∧
      getHeader optionsResponse.headers "X-Frame-Options" = none) ∧
    (missingUrlResponse.status = 400 ∧
      getHeader missingUrlResponse.headers "Access-Control-Allow-Origin" = none ∧
      noTargetResponse.status = 404 ∧
      getHeader noTargetResponse.headers "Access-Control-Allow-Origin" = none ∧
      (upstreamErrorResponse details url).status = 502 ∧
      getHeader (upstreamErrorResponse details url).headers
        "Access-Control-Allow-Origin" = none) := by
  obtain ⟨b1, b2, b3, b4, b5, b6, b7, -⟩ := baseRespHeaders_lookup cc etag
  obtain ⟨o1, o2, o3, o4, -, -, -⟩ := setPermissiveHeaders_lookup emptyHeaders
  refine ⟨⟨?_, ?_, ?_, ?_, ?_, ?_, ?_⟩, ⟨rfl, o1, o2, o3, o4⟩,
    rfl, ?_, rfl, ?_, rfl, ?_⟩
  · rw [processAndSend_headers_lookup ct cc etag finalUrl body st _ (by decide)]; exact b1
  · rw [processAndSend_headers_lookup ct cc etag finalUrl body st _ (by decide)]; exact b2
  · rw [processAndSend_headers_lookup ct cc etag finalUrl body st _ (by decide)]; exact b3
  · rw [processAndSend_headers_lookup ct cc etag finalUrl body st _ (by decide)]; exact b4
  · rw [processAndSend_headers_lookup ct cc etag finalUrl body st _ (by decide)]; exact b5
  · rw [processAndSend_headers_lookup ct cc etag finalUrl body st _ (by decide)]; exact b6
  · rw [processAndSend_headers_lookup ct cc etag finalUrl body st _ (by decide)]; exact b7
  · simp [missingUrlResponse, getHeader, setHeader, emptyHeaders]
  · simp [noTargetResponse, getHeader, setHeader, emptyHeaders]
  · simp [upstreamErrorResponse, getHeader, setHeader, emptyHeaders]

theorem leadsWith_cons_inv (a : Char) (as t : List Char)
    (h : leadsWith (a :: as) t = true) : ∃ ts, t = a :: ts := by
  cases t with
  | nil => simp [leadsWith] at h
  | cons b bs =>
    simp only [leadsWith, Bool.and_eq_true, beq_iff_eq] at h
    exact ⟨bs, by rw [h.1]⟩

theorem jsStartsWith_false_of_ne_head (u p : String) (c c2 : Char)
    (tail tail2 : List Char) (hu : u.data = c :: tail) (hp : p.data = c2 :: tail2)
    (hne : ¬c2 = c) : jsStartsWith u p = false := by
  unfold jsStartsWith
  rw [hu, hp]
  exact leadsWith_false_of_head_ne c2 c tail2 tail hne

theorem parseHttpUrl_starts (u : String) (r : UrlParts) (h : parseHttpUrl u = some r) :
    jsStartsWith u "https://" = true ∨ jsStartsWith u "http://" = true := by
  unfold parseHttpUrl at h
  by_cases h1 : jsStartsWith u "https://" = true
  · exact Or.inl h1
  · rw [if_neg h1] at h
    by_cases h2 : jsStartsWith u "http://" = true
    · exact Or.inr h2
    · rw [if_neg h2] at h
      exact absurd h (by simp)

theorem parseHttpUrl_head (u : String) (r : UrlParts) (h : parseHttpUrl u = some r) :
    ∃ tail, u.data = 'h' :: tail := by
  rcases parseHttpUrl_starts u r h with hs | hs
  · unfold jsStartsWith at hs
    have hd : ("https://" : String).data = 'h' :: ['t', 't', 'p', 's', ':', '/', '/'] := rfl
    rw [hd] at hs
    exact leadsWith_cons_inv _ _ _ hs
  · unfold jsStartsWith at hs
    have hd : ("http://" : String).data = 'h' :: ['t', 't', 'p', ':', '/', '/'] := rfl
    rw [hd] at hs
    exact leadsWith_cons_inv _ _ _ hs

/-- C7 counterexample: with `__PROXY_ORIGIN__ = "https://t.example"` set (the
runtime patch always sets it) and inspector mode off, clicking an anchor with
`href="https://other.example/y"` is prevented — but the `link-navigation`
message reports `https://t.example/y`, the proxy origin glued to the
third-party path, not the href unmodified. -/
theorem claim7_link_nav_counterexample :
    clickHandler false (some "https://other.example/y")
      { scheme := "http", host := "localhost:3001", pathname := "/", search := "", hash := "" }
      "https://t.example" = .blocked "https://t.example/y" ∧
    ("https://t.example/y" : String) ≠ "https://other.example/y" := by
  refine ⟨by decide, by decide⟩

/-- C7 amended: while inspector mode is off, a click on an anchor whose href
is an absolute http(s) URL that is not a same-page fragment change is
prevented and reported as a `link-navigation` message — but whenever
`__PROXY_ORIGIN__` is set the reported url is
`__PROXY_ORIGIN__ ++ pathname ++ search ++ hash` of the resolved href, so a
third-party href loses its own origin rather than being carried unmodified. -/
theorem claim7_link_nav_amended (href : String) (loc r : UrlParts) (proxyOrigin : String)
    (hparse : parseHttpUrl href = some r)
    (hnotsame : ¬(r.pathname = loc.pathname ∧ r.search = loc.search ∧ r.hash ≠ loc.hash))
    (hpo : proxyOrigin ≠ "") :
    clickHandler false (some href) loc proxyOrigin
      = .blocked (proxyOrigin ++ r.pathname ++ r.search ++ r.hash) := by
  have hne : href ≠ "" := by
    rcases parseHttpUrl_starts href r hparse with h | h
    · exact jsStartsWith_ne_empty href "https://" (by decide) h
    · exact jsStartsWith_ne_empty href "http://" (by decide) h
  obtain ⟨tail, htail⟩ := parseHttpUrl_head href r hparse
  have hspec : (jsStartsWith href "#" || jsStartsWith href "javascript:"
      || jsStartsWith href "mailto:" || jsStartsWith href "tel:") = false := by
    rw [jsStartsWith_false_of_ne_head href "#" 'h' '#' tail [] htail rfl (by decide),
      jsStartsWith_false_of_ne_head href "javascript:" 'h' 'j' tail
        ['a', 'v', 'a', 's', 'c', 'r', 'i', 'p', 't', ':'] htail rfl (by decide),
      jsStartsWith_false_of_ne_head href "mailto:" 'h' 'm' tail
        ['a', 'i', 'l', 't', 'o', ':'] htail rfl (by decide),
      jsStartsWith_false_of_ne_head href "tel:" 'h' 't' tail
        ['e', 'l', ':'] htail rfl (by decide)]
    rfl
  have hresolve : resolveUrl loc href = some r := by
    unfold resolveUrl
    rw [hparse]
  unfold clickHandler
  rw [if_neg (by simp : ¬(false : Bool) = true)]
  simp only [hresolve, hne, hspec, Bool.false_eq_true, if_false, if_neg hnotsame, hpo,
    ne_eq, not_false_eq_true, if_true, ite_not]

theorem claim7_link_nav_amended_witness :
    parseHttpUrl "https://other.example/y" = some
      { scheme := "https", host := "other.example", pathname := "/y", search := "", hash := "" } ∧
    ¬(("/y" : String) = "/" ∧ ("" : String) = "" ∧ ("" : String) ≠ "") ∧
    ("https://t.example" : String) ≠ "" ∧
    clickHandler false (some "https://other.example/y")
      { scheme := "http", host := "localhost:3001", pathname := "/", search := "", hash := "" }
      "https://t.example"
      = .blocked ("https://t.example" ++ "/y" ++ "" ++ "") :=
  ⟨by decide, by decide, by decide,
   claim7_link_nav_amended "https://other.example/y"
     { scheme := "http", host := "localhost:3001", pathname := "/", search := "", hash := "" }
     { scheme := "https", host := "other.example", pathname := "/y", search := "", hash := "" }
     "https://t.example" (by decide) (by decide) (by decide)⟩

/-- C8 counterexample: the overridden `history.pushState` posts the
`link-navigation` message but returns without ever invoking the original
`pushState`, so the in-process history mutation does NOT take effect: the
history is left unchanged where the original primitive would have pushed an
entry — contradicting the claim that the mutation is not prevented. -/
theorem claim8_history_counterexample :
    (pushStatePatched
      { scheme := "http", host := "localhost:3001", pathname := "/", search := "", hash := "" }
      "https://t.example" ["entry0"] (some "/next")).1 = ["entry0"] ∧
    origPushState ["entry0"] "/next" ≠ ["entry0"] ∧
    (pushStatePatched
      { scheme := "http", host := "localhost:3001", pathname := "/", search := "", hash := "" }
      "https://t.example" ["entry0"] (some "/next")).2
      = [{ source := "proxy-highlight", type := "link-navigation",
           url := "https://t.example/next", navType := "pushState" }] := by
  refine ⟨by decide, by decide, by decide⟩

/-- C8 amended: every call to the overridden `history.pushState` or
`history.replaceState` with a truthy URL argument (for `replaceState`, one
differing from `location.href`) posts exactly one `link-navigation` message
to the parent frame, and the overrides never invoke the original primitives:
the in-process history state is left unchanged, i.e. the history mutation IS
suppressed, not performed. -/
theorem claim8_history_amended (loc : UrlParts) (proxyOrigin : String) (hist : List String)
    (u : String) (hu : u ≠ "") (huloc : u ≠ urlPartsHref loc) :
    (pushStatePatched loc proxyOrigin hist (some u)).1 = hist ∧
    (pushStatePatched loc proxyOrigin hist (some u)).2
      = [{ source := "proxy-highlight", type := "link-navigation",
           url := historyReportedUrl loc proxyOrigin u, navType := "pushState" }] ∧
    (replaceStatePatched loc proxyOrigin hist (some u)).1 = hist ∧
    (replaceStatePatched loc proxyOrigin hist (some u)).2
      = [{ source := "proxy-highlight", type := "link-navigation",
           url := historyReportedUrl loc proxyOrigin u, navType := "replaceState" }] ∧
    (pushStatePatched loc proxyOrigin hist (some u)).1
      ≠ origPushState hist u := by
  refine ⟨?_, ?_, ?_, ?_, ?_⟩
  · simp [pushStatePatched, hu]
  · simp [pushStatePatched, hu]
  · simp [replaceStatePatched, hu, huloc]
  · simp [replaceStatePatched, hu, huloc]
  · have h1 : (pushStatePatched loc proxyOrigin hist (some u)).1 = hist := by
      simp [pushStatePatched, hu]
    rw [h1]
    unfold origPushState
    intro hEq
    have hlen := congrArg List.length hEq
    simp at hlen

theorem claim8_history_amended_witness :
    ("/next" : String) ≠ "" ∧
    ("/next" : String) ≠ urlPartsHref
      { scheme := "http", host := "localhost:3001", pathname := "/", search := "", hash := "" } ∧
    (pushStatePatched
      { scheme := "http", host := "localhost:3001", pathname := "/", search := "", hash := "" }
      "https://t.example" ["e0"] (some "/next")).1 = ["e0"] ∧
    (replaceStatePatched
      { scheme := "http", host := "localhost:3001", pathname := "/", search := "", hash := "" }
      "https://t.example" ["e0"] (some "/next")).1 = ["e0"] :=
  ⟨by decide, by decide,
   (claim8_history_amended
     { scheme := "http", host := "localhost:3001", pathname := "/", search := "", hash := "" }
     "https://t.example" ["e0"] "/next" (by decide) (by decide)).1,
   (claim8_history_amended
     { scheme := "http", host := "localhost:3001", pathname := "/", search := "", hash := "" }
     "https://t.example" ["e0"] "/next" (by decide) (by decide)).2.2.1⟩

/-- C9 counterexample: the generated runtime patch installs its overrides
unconditionally — executing it a second time on the same page does not leave
the page's primitives as after the first execution, it wraps every one of
them again (unlike the highlight bundle, whose `__PROXY_HIGHLIGHT_INIT__`
guard makes a second run a no-op). -/
theorem claim9_patch_guard_counterexample :
    runRuntimePatch "https://t.example" (runRuntimePatch "https://t.example" freshPage)
      ≠ runRuntimePatch "https://t.example" freshPage ∧
    runHighlightBundle (runHighlightBundle freshPage) = runHighlightBundle freshPage := by
  refine ⟨by decide, by decide⟩

/-- C9 amended: the runtime patch is NOT an idempotently guarded bootstrap —
each execution unconditionally stacks a fresh wrapper over every primitive it
overrides, so a duplicate injection is never a no-op; only the highlight
bundle carries the double-initialization guard and is idempotent. -/
theorem claim9_patch_guard_amended (origin : String) (g : PageGlobals) :
    (runRuntimePatch origin g).fetchImpl = .patched g.fetchImpl ∧
    (runRuntimePatch origin g).proxyOrigin = some origin ∧
    runRuntimePatch origin (runRuntimePatch origin g) ≠ runRuntimePatch origin g ∧
    runHighlightBundle (runHighlightBundle g) = runHighlightBundle g := by
  refine ⟨rfl, rfl, ?_, ?_⟩
  · intro hEq
    have h2 := congrArg PageGlobals.fetchImpl hEq
    simp only [runRuntimePatch] at h2
    exact primImpl_patched_ne _ h2
  · by_cases hg : g.highlightInit = true <;> simp [runHighlightBundle, hg]

end ProxyInspector
